import Mathlib

/-!
# Verification of the Fuel Drift simulation core

Shallow embedding of the game's core (`core/src/cave.rs`, `pickup.rs`,
`tractor.rs`, `fuel.rs`, `level.rs`) in Lean 4.

Modelling conventions:
* `f32` values are modelled as exact rationals (`ℚ`); all the numeric
  constants of the source are exactly representable.
* `u32` values are modelled as `Nat` with explicit reduction `% 2^32`
  where the source uses wrapping arithmetic; the checked subtraction
  `level_number - 1` (which panics on underflow in debug builds) is
  modelled by returning `none`.
* `f32::sqrt` (used only to normalise the tractor-beam force vector) has
  no exact counterpart in `ℚ`; it is modelled as an arbitrary function
  parameter `s : ℚ → ℚ`.  Theorems assume only `∀ x, 0 < x → 0 < s x`,
  which holds of the real square root.
* Stateful methods become state-passing functions; fallible operations
  return `Option`.
-/

namespace FuelDrift

/-! ## Constants (`core/src/constants.rs` and `cave.rs`) -/

namespace CaveConstants

def MIN_GAP : ℚ := 150

def SEGMENT_WIDTH : ℚ := 50

def MAX_HEIGHT_CHANGE : ℚ := 5

def INITIAL_CEILING : ℚ := 50

def INITIAL_FLOOR : ℚ := 450

def MAX_SEGMENTS : Nat := 100

end CaveConstants

namespace PickupConstants

def SIZE : ℚ := 20

def WALL_OFFSET : ℚ := 5

def SPAWN_DISTANCE_VARIATION : ℚ := 3 / 10

def RNG_SEED_OFFSET : Nat := 42

def INITIAL_SPAWN_DELAY : ℚ := 800

end PickupConstants

namespace TractorBeamConstants

def MAX_RANGE : ℚ := 300

def BEAM_WIDTH : ℚ := 32

def ATTRACTION_HOLD_WIDTH : ℚ := 48

def ATTRACTION_SPEED : ℚ := 200

def MAX_DURATION : ℚ := 2

end TractorBeamConstants

/-! ## SimpleRng (`cave.rs`): linear congruential generator on u32 -/

def U32_MOD : Nat := 4294967296

def U32_MAX : Nat := 4294967295

/-- `self.seed = self.seed.wrapping_mul(1103515245).wrapping_add(12345)` -/
def lcgStep (s : Nat) : Nat := (s * 1103515245 + 12345) % U32_MOD

/-- `SimpleRng::next_f32`: advances the state and returns
`(seed as f32) / (u32::MAX as f32)` together with the new state. -/
def nextF32 (s : Nat) : ℚ × Nat := (((lcgStep s : ℚ)) / (U32_MAX : ℚ), lcgStep s)

/-- `SimpleRng::range`: `min + next_f32() * (max - min)`. -/
def rngRange (lo hi : ℚ) (s : Nat) : ℚ × Nat :=
  (lo + (nextF32 s).1 * (hi - lo), (nextF32 s).2)

/-! ## CaveSegment -/

structure CaveSegment where
  ceiling : ℚ
  floor : ℚ
  xStart : ℚ
  width : ℚ
deriving DecidableEq

def CaveSegment.xEnd (s : CaveSegment) : ℚ := s.xStart + s.width

def CaveSegment.gapHeight (s : CaveSegment) : ℚ := s.floor - s.ceiling

/-! ## Pickup (`pickup.rs`) -/

inductive PickupType where
  | fuel
deriving DecidableEq

structure Pickup where
  position : ℚ × ℚ
  originalPosition : ℚ × ℚ
  pickupType : PickupType
  isOnCeiling : Bool
  collected : Bool
  beingAttracted : Bool
deriving DecidableEq

def Pickup.new (pos : ℚ × ℚ) (t : PickupType) (onCeiling : Bool) : Pickup :=
  { position := pos
    originalPosition := pos
    pickupType := t
    isOnCeiling := onCeiling
    collected := false
    beingAttracted := false }

/-- `Pickup::reset_to_wall`. -/
def Pickup.resetToWall (p : Pickup) : Pickup :=
  { p with position := p.originalPosition, beingAttracted := false }

/-- `Pickup::apply_attraction`. -/
def Pickup.applyAttraction (p : Pickup) (force : ℚ × ℚ) (speed dt : ℚ) : Pickup :=
  if !p.collected then
    { p with
        position := (p.position.1 + force.1 * speed * dt, p.position.2 + force.2 * speed * dt)
        beingAttracted := true }
  else p

/-! ## TractorBeam (`tractor.rs`) -/

inductive BeamDir where
  | up
  | down
deriving DecidableEq

structure TractorBeam where
  active : Bool
  dir : BeamDir
  timer : ℚ
deriving DecidableEq

def TractorBeam.new : TractorBeam :=
  { active := false, dir := BeamDir.up, timer := 0 }

/-- `TractorBeam::activate`: only activates if not already active. -/
def TractorBeam.activate (b : TractorBeam) (d : BeamDir) : TractorBeam :=
  if !b.active then
    { active := true, dir := d, timer := TractorBeamConstants.MAX_DURATION }
  else b

/-- `TractorBeam::tick`: decrements the timer, deactivating and clamping
to zero once `timer <= 0`. -/
def TractorBeam.tick (b : TractorBeam) (dt : ℚ) : TractorBeam :=
  if b.active then
    let t := b.timer - dt
    if t ≤ 0 then { b with active := false, timer := 0 }
    else { b with timer := t }
  else b

def TractorBeam.isActive (b : TractorBeam) : Bool := b.active

/-- `TractorBeam::is_point_in_beam_area`: directional rectangular test. -/
def TractorBeam.isPointInBeamArea (b : TractorBeam) (playerPos targetPos : ℚ × ℚ)
    (beamWidth : ℚ) : Bool :=
  if !b.active then false
  else
    let dx := targetPos.1 - playerPos.1
    let dy := targetPos.2 - playerPos.2
    let inDirection :=
      match b.dir with
      | BeamDir.up => decide (dy < 0)
      | BeamDir.down => decide (0 < dy)
    if !inDirection then false
    else decide (|dx| ≤ beamWidth / 2 ∧ |dy| ≤ TractorBeamConstants.MAX_RANGE)

/-- `TractorBeam::is_point_in_beam`: the narrow activation test. -/
def TractorBeam.isPointInBeam (b : TractorBeam) (playerPos targetPos : ℚ × ℚ) : Bool :=
  b.isPointInBeamArea playerPos targetPos TractorBeamConstants.BEAM_WIDTH

/-- `TractorBeam::should_maintain_attraction`: the wider hold test. -/
def TractorBeam.shouldMaintainAttraction (b : TractorBeam) (playerPos targetPos : ℚ × ℚ) : Bool :=
  b.isPointInBeamArea playerPos targetPos TractorBeamConstants.ATTRACTION_HOLD_WIDTH

/-- `TractorBeam::get_attraction_force`.  `s` models `f32::sqrt`. -/
def TractorBeam.getAttractionForce (b : TractorBeam) (s : ℚ → ℚ)
    (playerPos targetPos : ℚ × ℚ) : ℚ × ℚ :=
  if !b.isPointInBeam playerPos targetPos then (0, 0)
  else
    let dx := playerPos.1 - targetPos.1
    let dy := playerPos.2 - targetPos.2
    let dist := s (dx * dx + dy * dy)
    if 0 < dist then (dx / dist, dy / dist) else (0, 0)

/-! ## PickupManager (`pickup.rs`) -/

structure PickupManager where
  pickups : List Pickup
  rng : Nat
  lastPickupX : ℚ
  nextPickupDistance : ℚ
deriving DecidableEq

/-- `PickupManager::new`: rng seeded with `seed.wrapping_add(RNG_SEED_OFFSET)`,
`last_pickup_x = -INITIAL_SPAWN_DELAY`, `next_pickup_distance = 0`. -/
def PickupManager.new (seed : Nat) : PickupManager :=
  { pickups := []
    rng := (seed + PickupConstants.RNG_SEED_OFFSET) % U32_MOD
    lastPickupX := -PickupConstants.INITIAL_SPAWN_DELAY
    nextPickupDistance := 0 }

/-- `PickupManager::should_spawn_pickup`: returns the decision and the
updated manager state (spawn-cursor and rng advance on a true result). -/
def PickupManager.shouldSpawnPickup (pm : PickupManager) (x averageDistance : ℚ) :
    Bool × PickupManager :=
  if pm.lastPickupX + pm.nextPickupDistance ≤ x then
    let variation := averageDistance * PickupConstants.SPAWN_DISTANCE_VARIATION
    let r := rngRange (averageDistance - variation) (averageDistance + variation) pm.rng
    (true, { pm with rng := r.2, nextPickupDistance := r.1, lastPickupX := x })
  else (false, pm)

/-- `PickupManager::spawn_fuel_pickup`. -/
def PickupManager.spawnFuelPickup (pm : PickupManager) (x ceilingY floorY : ℚ) :
    PickupManager :=
  let r := nextF32 pm.rng
  let isOnCeiling := decide (r.1 < 1 / 2)
  let y :=
    if isOnCeiling then ceilingY + PickupConstants.WALL_OFFSET
    else floorY - PickupConstants.SIZE - PickupConstants.WALL_OFFSET
  { pm with
      rng := r.2
      pickups := pm.pickups ++ [Pickup.new (x, y) PickupType.fuel isOnCeiling] }

/-- `PickupManager::clear_all_pickups`: used by level transitions; resets the
spawn cursor to `last_pickup_x = 0`, `next_pickup_distance = INITIAL_SPAWN_DELAY`. -/
def PickupManager.clearAllPickups (pm : PickupManager) : PickupManager :=
  { pm with
      pickups := []
      lastPickupX := 0
      nextPickupDistance := PickupConstants.INITIAL_SPAWN_DELAY }

/-- `PickupManager::apply_attraction_force`: applies the (normalised) beam
force only when it is non-zero. -/
def PickupManager.applyAttractionForce (s : ℚ → ℚ) (pickup : Pickup)
    (tractorBeam : TractorBeam) (playerPos : ℚ × ℚ) (dt : ℚ) : Pickup :=
  let force := tractorBeam.getAttractionForce s playerPos pickup.position
  if force ≠ (0, 0) then
    pickup.applyAttraction force TractorBeamConstants.ATTRACTION_SPEED dt
  else pickup

/-- `PickupManager::handle_ongoing_attraction`. -/
def PickupManager.handleOngoingAttraction (s : ℚ → ℚ) (pickup : Pickup)
    (tractorBeam : TractorBeam) (playerPos : ℚ × ℚ) (dt : ℚ) : Pickup :=
  if tractorBeam.shouldMaintainAttraction playerPos pickup.position then
    PickupManager.applyAttractionForce s pickup tractorBeam playerPos dt
  else pickup.resetToWall

/-- `PickupManager::handle_initial_attraction`. -/
def PickupManager.handleInitialAttraction (s : ℚ → ℚ) (pickup : Pickup)
    (tractorBeam : TractorBeam) (playerPos : ℚ × ℚ) (dt : ℚ) : Pickup :=
  if tractorBeam.isPointInBeam playerPos pickup.position then
    PickupManager.applyAttractionForce s pickup tractorBeam playerPos dt
  else pickup

/-- `PickupManager::update_pickup_attraction`. -/
def PickupManager.updatePickupAttraction (s : ℚ → ℚ) (pickup : Pickup)
    (tractorBeam : TractorBeam) (playerPos : ℚ × ℚ) (dt : ℚ) : Pickup :=
  if pickup.beingAttracted then
    PickupManager.handleOngoingAttraction s pickup tractorBeam playerPos dt
  else
    PickupManager.handleInitialAttraction s pickup tractorBeam playerPos dt

/-- The per-pickup body of the loop in
`PickupManager::update_tractor_beam_attraction`. -/
def PickupManager.updatePickupStep (s : ℚ → ℚ) (tractorBeam : TractorBeam)
    (playerPos : ℚ × ℚ) (dt : ℚ) (pickup : Pickup) : Pickup :=
  if pickup.collected then pickup
  else if tractorBeam.isActive then
    PickupManager.updatePickupAttraction s pickup tractorBeam playerPos dt
  else if pickup.beingAttracted then pickup.resetToWall
  else pickup

/-- `PickupManager::update_tractor_beam_attraction`: updates every pickup. -/
def PickupManager.updateTractorBeamAttraction (pm : PickupManager) (s : ℚ → ℚ)
    (tractorBeam : TractorBeam) (playerPos : ℚ × ℚ) (dt : ℚ) : PickupManager :=
  { pm with
      pickups := pm.pickups.map (PickupManager.updatePickupStep s tractorBeam playerPos dt) }

/-! ## Fuel (`fuel.rs`) -/

structure Fuel where
  current : ℚ
  max : ℚ
  burnRate : ℚ
deriving DecidableEq

def Fuel.new (mx burnRate : ℚ) : Fuel :=
  { current := mx, max := mx, burnRate := burnRate }

/-- `Fuel::burn`: subtracts `burn_rate * dt` when consuming, clamps at 0 and
reports the empty transition edge. -/
def Fuel.burn (f : Fuel) (dt : ℚ) (consuming : Bool) : Fuel × Bool :=
  if !consuming then (f, false)
  else
    let burnAmount := f.burnRate * dt
    let wasEmpty := decide (f.current ≤ 0)
    let current2 := Max.max (f.current - burnAmount) 0
    ({ f with current := current2 }, !wasEmpty && decide (current2 ≤ 0))

/-! ## Level manager (`level.rs`) -/

structure Level where
  number : Nat
  durationSeconds : ℚ
  fuelSpawnDistance : ℚ
  caveWidth : ℚ
deriving DecidableEq

structure LevelManager where
  levels : List Level
  currentLevelIndex : Nat
  levelStartTime : ℚ
deriving DecidableEq

/-- `LevelManager::new` with the six default level configurations. -/
def LevelManager.new : LevelManager :=
  { levels :=
      [⟨1, 60, 300, 200⟩, ⟨2, 90, 400, 180⟩, ⟨3, 120, 500, 160⟩,
       ⟨4, 120, 600, 140⟩, ⟨5, 150, 700, 120⟩, ⟨6, 180, 800, 100⟩]
    currentLevelIndex := 0
    levelStartTime := 0 }

/-- `LevelManager::level_progress`: `Ok((elapsed / duration).min(1.0))`;
`none` models `Err(InvalidLevelIndex)`. -/
def LevelManager.levelProgress (m : LevelManager) (currentTime : ℚ) : Option ℚ :=
  match m.levels[m.currentLevelIndex]? with
  | none => none
  | some lvl => some (min ((currentTime - m.levelStartTime) / lvl.durationSeconds) 1)

/-! ## Cave (`cave.rs`) -/

structure Cave where
  segments : List CaveSegment
  rng : Nat
  nextX : ℚ
  pickupManager : PickupManager
  baseCeiling : ℚ
  baseFloor : ℚ
deriving DecidableEq

/-- `Cave::generate_initial_segment`. -/
def Cave.generateInitialSegment (c : Cave) : Cave :=
  let seg : CaveSegment :=
    { ceiling := c.baseCeiling, floor := c.baseFloor, xStart := 0,
      width := CaveConstants.SEGMENT_WIDTH }
  { c with segments := c.segments ++ [seg], nextX := seg.xEnd }

/-- `Cave::new`. -/
def Cave.new (seed : Nat) : Cave :=
  Cave.generateInitialSegment
    { segments := []
      rng := seed
      nextX := 0
      pickupManager := PickupManager.new seed
      baseCeiling := CaveConstants.INITIAL_CEILING
      baseFloor := CaveConstants.INITIAL_FLOOR }

/-- `Cave::configure_for_level`.  The u32 expression `level_number - 1`
underflows for `level_number = 0` (a panic in debug builds), modelled as
`none`; otherwise the gap formula is applied and the cave reset. -/
def Cave.configureForLevel (c : Cave) (levelNumber : Nat) : Option Cave :=
  if levelNumber = 0 then none
  else
    let initialGap := CaveConstants.INITIAL_FLOOR - CaveConstants.INITIAL_CEILING
    let levelReduction : ℚ := ((Min.min (levelNumber - 1) 5 : Nat) : ℚ) * 50
    let gap := Max.max (initialGap - levelReduction) CaveConstants.MIN_GAP
    let centerY : ℚ := 300
    some (Cave.generateInitialSegment
      { c with
          baseCeiling := centerY - gap / 2
          baseFloor := centerY + gap / 2
          segments := []
          pickupManager := c.pickupManager.clearAllPickups
          nextX := 0 })

/-- The two perturbation draws of `Cave::generate_next`:
`(new_ceiling_before_fix, new_floor_before_fix, rng_state_after)`. -/
def Cave.drawHeights (c : Cave) : ℚ × ℚ × Nat :=
  let r1 := rngRange (-CaveConstants.MAX_HEIGHT_CHANGE) CaveConstants.MAX_HEIGHT_CHANGE c.rng
  let r2 := rngRange (-CaveConstants.MAX_HEIGHT_CHANGE) CaveConstants.MAX_HEIGHT_CHANGE r1.2
  (c.baseCeiling + r1.1, c.baseFloor + r2.1, r2.2)

/-- The min-gap fix-up of `Cave::generate_next`: if the perturbed gap
would be below `MIN_GAP`, recenter around the midpoint of the violating
ceiling/floor pair and force the gap to exactly `MIN_GAP`. -/
def Cave.fixedHeights (c : Cave) : ℚ × ℚ :=
  let nc0 := c.drawHeights.1
  let nf0 := c.drawHeights.2.1
  if nf0 - nc0 < CaveConstants.MIN_GAP then
    ((nc0 + nf0) / 2 - CaveConstants.MIN_GAP / 2, (nc0 + nf0) / 2 + CaveConstants.MIN_GAP / 2)
  else (nc0, nf0)

/-- The FIFO eviction loop of `Cave::generate_next`:
`while segments.len() > MAX_SEGMENTS { segments.pop_front(); }`. -/
def evictSegments (segs : List CaveSegment) : List CaveSegment :=
  if CaveConstants.MAX_SEGMENTS < segs.length then
    segs.drop (segs.length - CaveConstants.MAX_SEGMENTS)
  else segs

/-- The body of `Cave::generate_next` past the non-emptiness `expect`:
min-gap fix-up, pickup spawn check, append, FIFO eviction. -/
def Cave.genNextCore (c : Cave) (fuelSpawnDistance : ℚ) : Cave :=
  let seg : CaveSegment :=
    { ceiling := c.fixedHeights.1, floor := c.fixedHeights.2, xStart := c.nextX,
      width := CaveConstants.SEGMENT_WIDTH }
  let sp := c.pickupManager.shouldSpawnPickup (seg.xStart + seg.width / 2) fuelSpawnDistance
  let pm2 :=
    if sp.1 then sp.2.spawnFuelPickup (seg.xStart + seg.width / 2) seg.ceiling seg.floor
    else sp.2
  { segments := evictSegments (c.segments ++ [seg])
    rng := c.drawHeights.2.2
    nextX := seg.xEnd
    pickupManager := pm2
    baseCeiling := c.baseCeiling
    baseFloor := c.baseFloor }

/-- `Cave::generate_next`: the `expect` on `segments.back()` fails exactly
when the segment sequence is empty. -/
def Cave.generateNext (c : Cave) (fuelSpawnDistance : ℚ) : Option Cave :=
  match c.segments with
  | [] => none
  | _ :: _ => some (c.genNextCore fuelSpawnDistance)

/-- The `while self.next_x < x_max + SEGMENT_WIDTH` loop of
`Cave::segments_in_view`, as a counted iteration: every call to
`generate_next` advances `next_x` by exactly `SEGMENT_WIDTH`, so the loop
runs `⌈(x_max + SEGMENT_WIDTH - next_x) / SEGMENT_WIDTH⌉` times. -/
def Cave.genLoop : Nat → ℚ → Cave → Option Cave
  | 0, _, c => some c
  | n + 1, fsd, c => (c.generateNext fsd).bind (Cave.genLoop n fsd)

def Cave.viewIterations (c : Cave) (xMax : ℚ) : Nat :=
  if c.nextX < xMax + CaveConstants.SEGMENT_WIDTH then
    ⌈(xMax + CaveConstants.SEGMENT_WIDTH - c.nextX) / CaveConstants.SEGMENT_WIDTH⌉₊
  else 0

/-- `Cave::segments_in_view`: lazily generates, then filters the retained
segments intersecting `[x_min, x_max)`. -/
def Cave.segmentsInView (c : Cave) (xMin xMax fuelSpawnDistance : ℚ) :
    Option (List CaveSegment × Cave) :=
  (Cave.genLoop (c.viewIterations xMax) fuelSpawnDistance c).map fun c2 =>
    (c2.segments.filter (fun seg => decide (seg.xStart < xMax) && decide (xMin < seg.xEnd)), c2)

/-- States of a `Cave` reachable through the public contract:
construction, level configuration and generation. -/
inductive Cave.Reachable : Cave → Prop where
  | new (seed : Nat) : Cave.Reachable (Cave.new seed)
  | cfg {c c2 : Cave} (levelNumber : Nat) :
      Cave.Reachable c → c.configureForLevel levelNumber = some c2 → Cave.Reachable c2
  | gen {c c2 : Cave} (fuelSpawnDistance : ℚ) :
      Cave.Reachable c → c.generateNext fuelSpawnDistance = some c2 → Cave.Reachable c2

/-- States of a `TractorBeam` reachable through `new`, `activate` and
`tick` with non-negative time deltas. -/
inductive TractorBeam.Reachable : TractorBeam → Prop where
  | new : TractorBeam.Reachable TractorBeam.new
  | act {b : TractorBeam} (d : BeamDir) :
      TractorBeam.Reachable b → TractorBeam.Reachable (b.activate d)
  | tick {b : TractorBeam} (dt : ℚ) :
      TractorBeam.Reachable b → 0 ≤ dt → TractorBeam.Reachable (b.tick dt)


/-! ## Segment sequence invariant machinery -/

/-- Closed-form description of the retained segment sequence: non-empty,
constant width, and the i-th segment starts `SEGMENT_WIDTH * (len - i)`
before the generation cursor. -/
def SegChain (l : List CaveSegment) (nx : ℚ) : Prop :=
  l ≠ [] ∧ ∀ (i : Nat) (sg : CaveSegment), l[i]? = some sg →
    sg.width = CaveConstants.SEGMENT_WIDTH ∧
    sg.xStart = nx - CaveConstants.SEGMENT_WIDTH * ((l.length - i : ℕ) : ℚ)

/-- All retained segments respect the minimum gap. -/
def MinGaps (l : List CaveSegment) : Prop :=
  ∀ sg ∈ l, CaveConstants.MIN_GAP ≤ sg.floor - sg.ceiling

def Cave.SegInv (c : Cave) : Prop := SegChain c.segments c.nextX ∧ MinGaps c.segments


/-! ## Helper lemmas -/

lemma segChain_singleton (cl fl : ℚ) :
    SegChain [⟨cl, fl, 0, CaveConstants.SEGMENT_WIDTH⟩] (0 + CaveConstants.SEGMENT_WIDTH) := by
  refine ⟨by simp, ?_⟩
  intro i sg h
  have hi : i < 1 := by
    have := (List.getElem?_eq_some_iff.mp h).1
    simpa using this
  interval_cases i
  simp only [List.getElem?_cons_zero] at h
  obtain rfl := Option.some.inj h
  refine ⟨rfl, ?_⟩
  norm_num

lemma segChain_append {l : List CaveSegment} {nx cl fl : ℚ} (h : SegChain l nx) :
    SegChain (l ++ [⟨cl, fl, nx, CaveConstants.SEGMENT_WIDTH⟩])
      (nx + CaveConstants.SEGMENT_WIDTH) := by
  obtain ⟨hne, hidx⟩ := h
  refine ⟨by simp, ?_⟩
  intro i sg hget
  have hlen : i < l.length + 1 := by
    have := (List.getElem?_eq_some_iff.mp hget).1
    simpa using this
  rw [List.getElem?_append] at hget
  by_cases hi : i < l.length
  · rw [if_pos hi] at hget
    obtain ⟨hw, hx⟩ := hidx i sg hget
    refine ⟨hw, ?_⟩
    rw [hx]
    have h1 : ((l ++ [(⟨cl, fl, nx, CaveConstants.SEGMENT_WIDTH⟩ : CaveSegment)]).length)
        = l.length + 1 := by simp
    rw [h1]
    have h3 : ((l.length - i : ℕ) : ℚ) = (l.length : ℚ) - (i : ℚ) := by
      rw [Nat.cast_sub (le_of_lt hi)]
    have h4 : ((l.length + 1 - i : ℕ) : ℚ) = (l.length : ℚ) + 1 - (i : ℚ) := by
      rw [Nat.cast_sub (by omega)]
      push_cast
      ring
    rw [h3, h4]
    ring
  · rw [if_neg hi] at hget
    have hieq : i = l.length := by omega
    subst hieq
    simp only [Nat.sub_self, List.getElem?_cons_zero] at hget
    obtain rfl := Option.some.inj hget
    refine ⟨rfl, ?_⟩
    have h1 : ((l ++ [(⟨cl, fl, nx, CaveConstants.SEGMENT_WIDTH⟩ : CaveSegment)]).length)
        = l.length + 1 := by simp
    rw [h1]
    have h2 : (l.length + 1 - l.length : ℕ) = 1 := by omega
    rw [h2]
    norm_num

lemma segChain_evict {l : List CaveSegment} {nx : ℚ} (h : SegChain l nx) :
    SegChain (evictSegments l) nx := by
  unfold evictSegments
  by_cases hlen : CaveConstants.MAX_SEGMENTS < l.length
  · rw [if_pos hlen]
    obtain ⟨hne, hidx⟩ := h
    constructor
    · have hdl : (l.drop (l.length - CaveConstants.MAX_SEGMENTS)).length
          = CaveConstants.MAX_SEGMENTS := by
        rw [List.length_drop]
        omega
      intro hcon
      rw [hcon] at hdl
      simp [CaveConstants.MAX_SEGMENTS] at hdl
    · intro i sg hget
      rw [List.getElem?_drop] at hget
      obtain ⟨hw, hx⟩ := hidx _ _ hget
      refine ⟨hw, ?_⟩
      rw [hx]
      have hnat : (l.length - (l.length - CaveConstants.MAX_SEGMENTS + i) : ℕ)
          = ((l.drop (l.length - CaveConstants.MAX_SEGMENTS)).length - i : ℕ) := by
        rw [List.length_drop]
        omega
      rw [hnat]
  · rw [if_neg hlen]
    exact h

lemma minGaps_append {l : List CaveSegment} {sg : CaveSegment} (h : MinGaps l)
    (hg : CaveConstants.MIN_GAP ≤ sg.floor - sg.ceiling) : MinGaps (l ++ [sg]) := by
  intro t ht
  rcases List.mem_append.mp ht with h1 | h1
  · exact h t h1
  · have : t = sg := by simpa using h1
    rw [this]
    exact hg

lemma minGaps_evict {l : List CaveSegment} (h : MinGaps l) : MinGaps (evictSegments l) := by
  intro t ht
  unfold evictSegments at ht
  by_cases hlen : CaveConstants.MAX_SEGMENTS < l.length
  · rw [if_pos hlen] at ht
    exact h t (List.drop_subset _ _ ht)
  · rw [if_neg hlen] at ht
    exact h t ht

lemma generateInitialSegment_segments (c : Cave) :
    c.generateInitialSegment.segments =
      c.segments ++ [⟨c.baseCeiling, c.baseFloor, 0, CaveConstants.SEGMENT_WIDTH⟩] := rfl

lemma generateInitialSegment_nextX (c : Cave) :
    c.generateInitialSegment.nextX = 0 + CaveConstants.SEGMENT_WIDTH := rfl

lemma segInv_initial (c0 : Cave) (h : c0.segments = [])
    (hgap : CaveConstants.MIN_GAP ≤ c0.baseFloor - c0.baseCeiling) :
    c0.generateInitialSegment.SegInv := by
  constructor
  · rw [generateInitialSegment_segments, generateInitialSegment_nextX, h,
      List.nil_append]
    exact segChain_singleton c0.baseCeiling c0.baseFloor
  · rw [generateInitialSegment_segments, h, List.nil_append]
    intro sg hsg
    have : sg = ⟨c0.baseCeiling, c0.baseFloor, 0, CaveConstants.SEGMENT_WIDTH⟩ := by
      simpa using hsg
    rw [this]
    exact hgap

lemma segInv_cave_new (seed : Nat) : (Cave.new seed).SegInv := by
  unfold Cave.new
  exact segInv_initial _ rfl
    (by norm_num [CaveConstants.MIN_GAP, CaveConstants.INITIAL_FLOOR,
      CaveConstants.INITIAL_CEILING])

lemma segInv_configureForLevel {c c2 : Cave} {lvl : Nat}
    (h : c.configureForLevel lvl = some c2) : c2.SegInv := by
  unfold Cave.configureForLevel at h
  by_cases h0 : lvl = 0
  · rw [if_pos h0] at h
    cases h
  · rw [if_neg h0] at h
    obtain rfl := Option.some.inj h
    apply segInv_initial _ rfl
    dsimp only
    have hmax := le_max_right
      (CaveConstants.INITIAL_FLOOR - CaveConstants.INITIAL_CEILING -
        ((Min.min (lvl - 1) 5 : Nat) : ℚ) * 50) CaveConstants.MIN_GAP
    linarith

lemma genNextCore_segments (c : Cave) (fsd : ℚ) :
    (c.genNextCore fsd).segments =
      evictSegments (c.segments ++
        [⟨c.fixedHeights.1, c.fixedHeights.2, c.nextX, CaveConstants.SEGMENT_WIDTH⟩]) := rfl

lemma genNextCore_nextX (c : Cave) (fsd : ℚ) :
    (c.genNextCore fsd).nextX = c.nextX + CaveConstants.SEGMENT_WIDTH := rfl

lemma fixedHeights_gap (c : Cave) :
    CaveConstants.MIN_GAP ≤ c.fixedHeights.2 - c.fixedHeights.1 := by
  unfold Cave.fixedHeights
  by_cases hfix : c.drawHeights.2.1 - c.drawHeights.1 < CaveConstants.MIN_GAP
  · rw [if_pos hfix]
    dsimp only
    linarith
  · rw [if_neg hfix]
    dsimp only
    linarith [not_lt.mp hfix]

lemma fixedHeights_recentered (c : Cave)
    (h : c.drawHeights.2.1 - c.drawHeights.1 < CaveConstants.MIN_GAP) :
    c.fixedHeights =
      ((c.drawHeights.1 + c.drawHeights.2.1) / 2 - CaveConstants.MIN_GAP / 2,
       (c.drawHeights.1 + c.drawHeights.2.1) / 2 + CaveConstants.MIN_GAP / 2) := by
  unfold Cave.fixedHeights
  rw [if_pos h]

lemma segInv_genNextCore {c : Cave} (h : c.SegInv) (fsd : ℚ) :
    (c.genNextCore fsd).SegInv := by
  obtain ⟨hchain, hgaps⟩ := h
  constructor
  · rw [genNextCore_segments, genNextCore_nextX]
    exact segChain_evict (segChain_append hchain)
  · rw [genNextCore_segments]
    refine minGaps_evict (minGaps_append hgaps ?_)
    simpa using fixedHeights_gap c

lemma segInv_reachable {c : Cave} (h : c.Reachable) : c.SegInv := by
  induction h with
  | new seed => exact segInv_cave_new seed
  | @cfg c c2 lvl hr heq ih => exact segInv_configureForLevel heq
  | @gen c c2 fsd hr heq ih =>
      unfold Cave.generateNext at heq
      cases hl : c.segments with
      | nil =>
          rw [hl] at heq
          cases heq
      | cons a t =>
          rw [hl] at heq
          obtain rfl := Option.some.inj heq
          exact segInv_genNextCore ih fsd

lemma isPointInBeamArea_iff (b : TractorBeam) (pp tp : ℚ × ℚ) (w : ℚ) :
    b.isPointInBeamArea pp tp w = true ↔
      b.active = true ∧
      (match b.dir with
        | BeamDir.up => tp.2 - pp.2 < 0
        | BeamDir.down => 0 < tp.2 - pp.2) ∧
      |tp.1 - pp.1| ≤ w / 2 ∧ |tp.2 - pp.2| ≤ TractorBeamConstants.MAX_RANGE := by
  cases hA : b.active <;> cases hd : b.dir <;>
    simp [TractorBeam.isPointInBeamArea, hA, hd, and_assoc]

lemma in_beam_dy_ne {b : TractorBeam} {pp tp : ℚ × ℚ} {w : ℚ}
    (h : b.isPointInBeamArea pp tp w = true) : tp.2 - pp.2 ≠ 0 := by
  rcases (isPointInBeamArea_iff b pp tp w).mp h with ⟨-, hdir, -⟩
  cases hd : b.dir
  · simp only [hd] at hdir
    exact ne_of_lt hdir
  · simp only [hd] at hdir
    exact ne_of_gt hdir

lemma getAttractionForce_of_not_in_beam {b : TractorBeam} {s : ℚ → ℚ} {pp tp : ℚ × ℚ}
    (h : b.isPointInBeam pp tp = false) :
    b.getAttractionForce s pp tp = (0, 0) := by
  simp [TractorBeam.getAttractionForce, h]

lemma getAttractionForce_ne_zero {b : TractorBeam} {s : ℚ → ℚ} {pp tp : ℚ × ℚ}
    (hs : ∀ x : ℚ, 0 < x → 0 < s x) (h : b.isPointInBeam pp tp = true) :
    b.getAttractionForce s pp tp ≠ (0, 0) := by
  have hdy : tp.2 - pp.2 ≠ 0 := in_beam_dy_ne h
  have hdy2 : pp.2 - tp.2 ≠ 0 := by
    intro hcon
    exact hdy (by linarith)
  have hsq : 0 < (pp.1 - tp.1) * (pp.1 - tp.1) + (pp.2 - tp.2) * (pp.2 - tp.2) := by
    have h1 : 0 < (pp.2 - tp.2) * (pp.2 - tp.2) := mul_self_pos.mpr hdy2
    nlinarith [mul_self_nonneg (pp.1 - tp.1)]
  have hdist : 0 < s ((pp.1 - tp.1) * (pp.1 - tp.1) + (pp.2 - tp.2) * (pp.2 - tp.2)) := hs _ hsq
  unfold TractorBeam.getAttractionForce
  rw [h]
  simp only [Bool.not_true, Bool.false_eq_true, if_false]
  rw [if_pos hdist]
  intro hcon
  have h2 : (pp.2 - tp.2) / s ((pp.1 - tp.1) * (pp.1 - tp.1) + (pp.2 - tp.2) * (pp.2 - tp.2)) = 0 :=
    congrArg Prod.snd hcon
  rcases div_eq_zero_iff.mp h2 with h3 | h3
  · exact hdy2 h3
  · exact absurd h3 (ne_of_gt hdist)

lemma applyAttractionForce_not_in_beam {s : ℚ → ℚ} {pk : Pickup} {b : TractorBeam}
    {pp : ℚ × ℚ} {dt : ℚ} (h : b.isPointInBeam pp pk.position = false) :
    PickupManager.applyAttractionForce s pk b pp dt = pk := by
  unfold PickupManager.applyAttractionForce
  rw [getAttractionForce_of_not_in_beam h]
  simp

lemma applyAttractionForce_in_beam {s : ℚ → ℚ} {pk : Pickup} {b : TractorBeam}
    {pp : ℚ × ℚ} {dt : ℚ} (hs : ∀ x : ℚ, 0 < x → 0 < s x)
    (h : b.isPointInBeam pp pk.position = true) (hc : pk.collected = false) :
    (PickupManager.applyAttractionForce s pk b pp dt).beingAttracted = true := by
  unfold PickupManager.applyAttractionForce
  rw [if_pos (getAttractionForce_ne_zero hs h)]
  unfold Pickup.applyAttraction
  rw [hc]
  simp

lemma step_inactive {s : ℚ → ℚ} {beam : TractorBeam} {pp : ℚ × ℚ} {dt : ℚ} {pk : Pickup}
    (hA : beam.active = false) (hc : pk.collected = false) (hatt : pk.beingAttracted = true) :
    PickupManager.updatePickupStep s beam pp dt pk = pk.resetToWall := by
  unfold PickupManager.updatePickupStep TractorBeam.isActive
  rw [hc, hA, hatt]
  simp

lemma step_active_ongoing {s : ℚ → ℚ} {beam : TractorBeam} {pp : ℚ × ℚ} {dt : ℚ} {pk : Pickup}
    (hA : beam.active = true) (hc : pk.collected = false) (hatt : pk.beingAttracted = true) :
    PickupManager.updatePickupStep s beam pp dt pk =
      (if beam.shouldMaintainAttraction pp pk.position then
        PickupManager.applyAttractionForce s pk beam pp dt
      else pk.resetToWall) := by
  unfold PickupManager.updatePickupStep TractorBeam.isActive
    PickupManager.updatePickupAttraction PickupManager.handleOngoingAttraction
  rw [hc, hA, hatt]
  simp

lemma step_active_initial {s : ℚ → ℚ} {beam : TractorBeam} {pp : ℚ × ℚ} {dt : ℚ} {pk : Pickup}
    (hA : beam.active = true) (hc : pk.collected = false) (hatt : pk.beingAttracted = false) :
    PickupManager.updatePickupStep s beam pp dt pk =
      (if beam.isPointInBeam pp pk.position then
        PickupManager.applyAttractionForce s pk beam pp dt
      else pk) := by
  unfold PickupManager.updatePickupStep TractorBeam.isActive
    PickupManager.updatePickupAttraction PickupManager.handleInitialAttraction
  rw [hc, hA, hatt]
  simp

/-! ## Claims -/

theorem c4_counterexample :
    (nextF32 230538014).1 = 1 ∧ ¬ (nextF32 230538014).1 < 1 ∧
    (rngRange 0 1 230538014).1 = 1 ∧ ¬ (rngRange 0 1 230538014).1 < 1 := by
  have h : lcgStep 230538014 = 4294967295 := by norm_num [lcgStep, U32_MOD]
  have h1 : (nextF32 230538014).1 = 1 := by
    rw [nextF32]
    rw [h]
    norm_num [U32_MAX]
  have h2 : (rngRange 0 1 230538014).1 = 1 := by
    rw [rngRange, h1]
    norm_num
  exact ⟨h1, by rw [h1]; norm_num, h2, by rw [h2]; norm_num⟩

/-- C4 (amended): for every u32 state `next_f32` returns a value in the
closed interval [0, 1], and for lo < hi every result of `range(lo, hi)`
satisfies lo ≤ r ≤ hi; the upper bounds are attained (not strict). -/
theorem c4_rng_range_bound (s : Nat) (lo hi : ℚ) (h : lo < hi) :
    (0 ≤ (nextF32 s).1 ∧ (nextF32 s).1 ≤ 1) ∧
    lo ≤ (rngRange lo hi s).1 ∧ (rngRange lo hi s).1 ≤ hi := by
  have hlt : lcgStep s < U32_MOD := by
    unfold lcgStep
    exact Nat.mod_lt _ (by norm_num [U32_MOD])
  have hle : (lcgStep s : ℚ) ≤ (U32_MAX : ℚ) := by
    have hn : lcgStep s ≤ U32_MAX := by
      unfold U32_MOD U32_MAX at *
      omega
    exact_mod_cast hn
  have hpos : (0 : ℚ) < (U32_MAX : ℚ) := by
    have hZ : (0 : ℕ) < U32_MAX := by norm_num [U32_MAX]
    exact_mod_cast hZ
  have hv0 : 0 ≤ (nextF32 s).1 := by
    unfold nextF32
    exact div_nonneg (Nat.cast_nonneg _) (le_of_lt hpos)
  have hv1 : (nextF32 s).1 ≤ 1 := by
    unfold nextF32
    rw [div_le_one hpos]
    exact hle
  have hsub : (0 : ℚ) ≤ hi - lo := by linarith
  have hmul0 : 0 ≤ (nextF32 s).1 * (hi - lo) := mul_nonneg hv0 hsub
  have hmul1 : (nextF32 s).1 * (hi - lo) ≤ hi - lo := by
    have hmm := mul_le_mul_of_nonneg_right hv1 hsub
    linarith
  refine ⟨⟨hv0, hv1⟩, ?_, ?_⟩
  · show lo ≤ lo + (nextF32 s).1 * (hi - lo)
    linarith
  · show lo + (nextF32 s).1 * (hi - lo) ≤ hi
    linarith

/-- C4 witness. -/
theorem c4_witness :
    ((0 : ℚ) ≤ (nextF32 0).1 ∧ (nextF32 0).1 ≤ 1) ∧
    (0 : ℚ) ≤ (rngRange 0 1 0).1 ∧ (rngRange 0 1 0).1 ≤ 1 :=
  c4_rng_range_bound 0 0 1 (by norm_num)


lemma beam_reachable_inv {b : TractorBeam} (h : b.Reachable) :
    0 ≤ b.timer ∧ (b.active = false → b.timer = 0) := by
  induction h with
  | new => exact ⟨le_refl 0, fun _ => rfl⟩
  | @act b d hb ih =>
      by_cases hA : b.active = true
      · have : b.activate d = b := by simp [TractorBeam.activate, hA]
        rw [this]
        exact ih
      · simp only [Bool.not_eq_true] at hA
        have : b.activate d = { active := true, dir := d, timer := TractorBeamConstants.MAX_DURATION } := by
          simp [TractorBeam.activate, hA]
        rw [this]
        refine ⟨by norm_num [TractorBeamConstants.MAX_DURATION], by intro hF; cases hF⟩
  | @tick b dt hb hdt ih =>
      by_cases hA : b.active = true
      · by_cases hT : b.timer - dt ≤ 0
        · have : b.tick dt = { b with active := false, timer := 0 } := by
            simp [TractorBeam.tick, hA, hT]
          rw [this]
          exact ⟨le_refl 0, fun _ => rfl⟩
        · have : b.tick dt = { b with timer := b.timer - dt } := by
            simp [TractorBeam.tick, hA, hT]
          rw [this]
          constructor
          · show 0 ≤ b.timer - dt
            linarith [not_le.mp hT]
          · intro hF
            have hF2 : b.active = false := hF
            rw [hA] at hF2
            cases hF2
      · simp only [Bool.not_eq_true] at hA
        have : b.tick dt = b := by simp [TractorBeam.tick, hA]
        rw [this]
        exact ih

/-- C5: every tractor beam state reachable through `new`, `activate(dir)`
and `tick(dt)` with `dt ≥ 0` satisfies `timer ≥ 0` and
`active = false → timer = 0`; ticking an active beam by any `dt` with
`timer - dt ≤ 0` leaves it inactive with timer exactly 0, and ticking an
inactive beam changes nothing. -/
theorem c5_beam_timer_invariant (b : TractorBeam) (h : b.Reachable) :
    (0 ≤ b.timer ∧ (b.active = false → b.timer = 0)) ∧
    (∀ dt : ℚ, b.active = true → b.timer - dt ≤ 0 →
      b.tick dt = { active := false, dir := b.dir, timer := 0 }) ∧
    (∀ dt : ℚ, b.active = false → b.tick dt = b) := by
  refine ⟨beam_reachable_inv h, ?_, ?_⟩
  · intro dt hA hT
    simp [TractorBeam.tick, hA, hT]
  · intro dt hA
    simp [TractorBeam.tick, hA]

/-- C5 witness: a freshly activated beam (timer = MAX_DURATION = 2),
ticked by exactly 2. -/
theorem c5_witness :
    0 ≤ (TractorBeam.new.activate BeamDir.up).timer ∧
    (TractorBeam.new.activate BeamDir.up).tick 2 =
      { active := false, dir := BeamDir.up, timer := 0 } :=
  ⟨(c5_beam_timer_invariant _ (TractorBeam.Reachable.act BeamDir.up TractorBeam.Reachable.new)).1.1,
   (c5_beam_timer_invariant _ (TractorBeam.Reachable.act BeamDir.up TractorBeam.Reachable.new)).2.1
     2 (by simp [TractorBeam.new, TractorBeam.activate])
     (by norm_num [TractorBeam.new, TractorBeam.activate, TractorBeamConstants.MAX_DURATION])⟩

lemma burn_snd_true (f : Fuel) (dt : ℚ) :
    (f.burn dt true).2 =
      (!decide (f.current ≤ 0) && decide (Max.max (f.current - f.burnRate * dt) 0 ≤ 0)) := rfl

lemma burn_fst_true (f : Fuel) (dt : ℚ) :
    (f.burn dt true).1 = { f with current := Max.max (f.current - f.burnRate * dt) 0 } := rfl

/-- C6: `burn(dt, consuming)` returns true exactly when `consuming` is
true, `current` was > 0 before the call and `current - burn_rate*dt ≤ 0`;
afterwards `current = max(current - burn_rate*dt, 0)` when consuming and
is unchanged otherwise (a second call on empty fuel returns false).
Concretely, `Fuel::new(1, 60).burn(1/60, true)` returns true leaving
`current = 0`, and repeating the call returns false. -/
theorem c6_fuel_edge_trigger :
    (∀ (f : Fuel) (dt : ℚ) (consuming : Bool),
      ((f.burn dt consuming).2 = true ↔
        consuming = true ∧ 0 < f.current ∧ f.current - f.burnRate * dt ≤ 0) ∧
      (f.burn dt consuming).1.current =
        (if consuming then Max.max (f.current - f.burnRate * dt) 0 else f.current) ∧
      (consuming = false → f.burn dt consuming = (f, false))) ∧
    (Fuel.new 1 60).burn (1 / 60) true = ({ current := 0, max := 1, burnRate := 60 }, true) ∧
    (((Fuel.new 1 60).burn (1 / 60) true).1.burn (1 / 60) true).2 = false := by
  have hc : ((Fuel.new 1 60).burn (1 / 60) true).1 = { current := 0, max := 1, burnRate := 60 } := by
    rw [burn_fst_true]
    norm_num [Fuel.new]
  have hs : ((Fuel.new 1 60).burn (1 / 60) true).2 = true := by
    rw [burn_snd_true]
    norm_num [Fuel.new]
  refine ⟨?_, ?_, ?_⟩
  · intro f dt consuming
    cases consuming with
    | false => simp [Fuel.burn]
    | true =>
        refine ⟨?_, ?_, by intro hF; cases hF⟩
        · rw [burn_snd_true]
          simp only [Bool.and_eq_true, Bool.not_eq_true', decide_eq_true_eq,
            decide_eq_false_iff_not, max_le_iff, not_le]
          constructor
          · rintro ⟨h1, h2, -⟩
            exact ⟨trivial, h1, h2⟩
          · rintro ⟨-, h1, h2⟩
            exact ⟨h1, h2, le_refl 0⟩
        · rw [burn_fst_true]
          simp
  · rw [Prod.ext_iff]
    exact ⟨hc, hs⟩
  · rw [hc, burn_snd_true]
    norm_num

/-- C6 witness: the concrete edge-trigger instance. -/
theorem c6_witness :
    (Fuel.new 1 60).burn (1 / 60) true = ({ current := 0, max := 1, burnRate := 60 }, true) :=
  c6_fuel_edge_trigger.2.1

/-- C7 counterexample: on a freshly constructed `PickupManager`,
`should_spawn_pickup(0, 300)` returns true even though 0 < 800
(= INITIAL_SPAWN_DELAY): the constructor sets
`last_pickup_x = -INITIAL_SPAWN_DELAY` and `next_pickup_distance = 0`,
so the first spawn check succeeds immediately. -/
theorem c7_counterexample :
    ((PickupManager.new 0).shouldSpawnPickup 0 300).1 = true ∧
    (0 : ℚ) < PickupConstants.INITIAL_SPAWN_DELAY := by
  constructor
  · have hcond : (PickupManager.new 0).lastPickupX + (PickupManager.new 0).nextPickupDistance ≤ 0 := by
      norm_num [PickupManager.new, PickupConstants.INITIAL_SPAWN_DELAY]
    simp [PickupManager.shouldSpawnPickup, hcond]
  · norm_num [PickupConstants.INITIAL_SPAWN_DELAY]

/-- C7 (amended): the initial spawn delay holds after
`clear_all_pickups` — `should_spawn_pickup(x, avg)` returns false for
every `0 ≤ x < INITIAL_SPAWN_DELAY` — but NOT after fresh construction,
where the same call returns true for any such x (the first pickup can
spawn immediately). -/
theorem c7_initial_spawn_delay (pm : PickupManager) (x averageDistance : ℚ)
    (h0 : 0 ≤ x) (h1 : x < PickupConstants.INITIAL_SPAWN_DELAY) :
    (pm.clearAllPickups.shouldSpawnPickup x averageDistance).1 = false ∧
    ∀ seed : Nat, ((PickupManager.new seed).shouldSpawnPickup x averageDistance).1 = true := by
  rw [PickupConstants.INITIAL_SPAWN_DELAY] at h1
  constructor
  · have hcond : ¬ (pm.clearAllPickups.lastPickupX + pm.clearAllPickups.nextPickupDistance ≤ x) := by
      simp only [PickupManager.clearAllPickups]
      norm_num [PickupConstants.INITIAL_SPAWN_DELAY]
      all_goals linarith
    simp [PickupManager.shouldSpawnPickup, hcond]
  · intro seed
    have hcond : (PickupManager.new seed).lastPickupX + (PickupManager.new seed).nextPickupDistance ≤ x := by
      simp only [PickupManager.new]
      norm_num [PickupConstants.INITIAL_SPAWN_DELAY]
      all_goals linarith
    simp [PickupManager.shouldSpawnPickup, hcond]

/-- C7 witness at x = 400. -/
theorem c7_witness :
    ((PickupManager.new 7).clearAllPickups.shouldSpawnPickup 400 300).1 = false ∧
    ∀ seed : Nat, ((PickupManager.new seed).shouldSpawnPickup 400 300).1 = true :=
  c7_initial_spawn_delay (PickupManager.new 7) 400 300 (by norm_num)
    (by norm_num [PickupConstants.INITIAL_SPAWN_DELAY])

/-- C8 counterexample: `level_progress` only clamps above;
`LevelManager::new().level_progress(-60)` returns -1, outside [0, 1]. -/
theorem c8_counterexample :
    LevelManager.new.levelProgress (-60) = some (-1) ∧ ¬ ((0 : ℚ) ≤ -1) := by
  constructor
  · have hidx : LevelManager.new.levels[LevelManager.new.currentLevelIndex]? =
        some ⟨1, 60, 300, 200⟩ := rfl
    rw [LevelManager.levelProgress, hidx]
    norm_num [LevelManager.new]
  · norm_num

/-- C8 (amended): for a level manager whose current index is valid, with
a positive level duration and `current_time ≥ level_start_time`,
`level_progress` returns a value in [0, 1]; the code clamps only the
upper end with `.min(1.0)`, so for `current_time < level_start_time` the
result is negative. -/
theorem c8_level_progress_clamp (m : LevelManager) (t : ℚ) (lvl : Level)
    (hidx : m.levels[m.currentLevelIndex]? = some lvl)
    (hdur : 0 < lvl.durationSeconds) (ht : m.levelStartTime ≤ t) :
    ∃ q, m.levelProgress t = some q ∧ 0 ≤ q ∧ q ≤ 1 := by
  refine ⟨min ((t - m.levelStartTime) / lvl.durationSeconds) 1, ?_, ?_, min_le_right _ _⟩
  · rw [LevelManager.levelProgress, hidx]
  · exact le_min (div_nonneg (by linarith) (le_of_lt hdur)) zero_le_one

/-- C8 witness: the default manager at time 30. -/
theorem c8_witness : ∃ q, LevelManager.new.levelProgress 30 = some q ∧ 0 ≤ q ∧ q ≤ 1 :=
  c8_level_progress_clamp LevelManager.new 30 ⟨1, 60, 300, 200⟩ rfl (by norm_num)
    (by norm_num [LevelManager.new])

/-- C3: hysteresis state machine of `update_tractor_beam_attraction`.
For every non-collected pickup: when the beam is active, an
already-attracted pickup stays attracted iff the wider hold test
`should_maintain_attraction` holds (else it is reset to
`original_position` with the flag cleared); a not-yet-attracted pickup
becomes attracted iff the narrower `is_point_in_beam` test holds; when
the beam is inactive, every attracted pickup snaps back to
`original_position` with the flag cleared. -/
theorem c3_attraction_hysteresis (s : ℚ → ℚ) (hs : ∀ x : ℚ, 0 < x → 0 < s x)
    (beam : TractorBeam) (playerPos : ℚ × ℚ) (dt : ℚ) (pm : PickupManager)
    (i : Nat) (pk pk2 : Pickup)
    (hpk : pm.pickups[i]? = some pk)
    (hpk2 : (pm.updateTractorBeamAttraction s beam playerPos dt).pickups[i]? = some pk2)
    (hc : pk.collected = false) :
    (beam.active = true → pk.beingAttracted = true →
      ((pk2.beingAttracted = true ↔ beam.shouldMaintainAttraction playerPos pk.position = true) ∧
       (beam.shouldMaintainAttraction playerPos pk.position = false →
         pk2.position = pk.originalPosition ∧ pk2.beingAttracted = false))) ∧
    (beam.active = true → pk.beingAttracted = false →
      (pk2.beingAttracted = true ↔ beam.isPointInBeam playerPos pk.position = true)) ∧
    (beam.active = false → pk.beingAttracted = true →
      pk2.position = pk.originalPosition ∧ pk2.beingAttracted = false) := by
  have hstep : pk2 = PickupManager.updatePickupStep s beam playerPos dt pk := by
    rw [PickupManager.updateTractorBeamAttraction] at hpk2
    simp only [List.getElem?_map, hpk, Option.map_some] at hpk2
    exact (Option.some.inj hpk2).symm
  subst hstep
  refine ⟨?_, ?_, ?_⟩
  · intro hA hatt
    rw [step_active_ongoing hA hc hatt]
    by_cases hm : beam.shouldMaintainAttraction playerPos pk.position = true
    · rw [if_pos hm]
      refine ⟨⟨fun _ => hm, fun _ => ?_⟩, fun hmF => absurd hm (by rw [hmF]; exact Bool.false_ne_true)⟩
      by_cases hin : beam.isPointInBeam playerPos pk.position = true
      · exact applyAttractionForce_in_beam hs hin hc
      · rw [applyAttractionForce_not_in_beam (Bool.not_eq_true _ ▸ hin : _)]
        exact hatt
    · have hmF : beam.shouldMaintainAttraction playerPos pk.position = false :=
        Bool.not_eq_true _ ▸ hm
      rw [if_neg hm]
      refine ⟨⟨?_, ?_⟩, fun _ => ⟨rfl, rfl⟩⟩
      · intro hcon
        have : (pk.resetToWall).beingAttracted = false := rfl
        rw [hcon] at this
        cases this
      · intro hcon
        rw [hmF] at hcon
        cases hcon
  · intro hA hatt
    rw [step_active_initial hA hc hatt]
    by_cases hin : beam.isPointInBeam playerPos pk.position = true
    · rw [if_pos hin]
      exact ⟨fun _ => hin, fun _ => applyAttractionForce_in_beam hs hin hc⟩
    · rw [if_neg hin]
      constructor
      · intro hcon
        rw [hatt] at hcon
        cases hcon
      · intro hcon
        exact absurd hcon hin
  · intro hA hatt
    rw [step_inactive hA hc hatt]
    exact ⟨rfl, rfl⟩

/-- C3 witness: one fresh pickup straight above the player, inside an
active upward beam. -/
theorem c3_witness :
    ((⟨true, BeamDir.up, 2⟩ : TractorBeam).active = true →
      (Pickup.new (0, -10) PickupType.fuel true).beingAttracted = true →
      ((({ position := (0, 10), originalPosition := (0, -10), pickupType := PickupType.fuel,
           isOnCeiling := true, collected := false, beingAttracted := true } : Pickup).beingAttracted = true ↔
        (⟨true, BeamDir.up, 2⟩ : TractorBeam).shouldMaintainAttraction (0, 0)
          (Pickup.new (0, -10) PickupType.fuel true).position = true) ∧
       ((⟨true, BeamDir.up, 2⟩ : TractorBeam).shouldMaintainAttraction (0, 0)
          (Pickup.new (0, -10) PickupType.fuel true).position = false →
         ({ position := (0, 10), originalPosition := (0, -10), pickupType := PickupType.fuel,
            isOnCeiling := true, collected := false, beingAttracted := true } : Pickup).position =
           (Pickup.new (0, -10) PickupType.fuel true).originalPosition ∧
         ({ position := (0, 10), originalPosition := (0, -10), pickupType := PickupType.fuel,
            isOnCeiling := true, collected := false, beingAttracted := true } : Pickup).beingAttracted = false))) ∧
    ((⟨true, BeamDir.up, 2⟩ : TractorBeam).active = true →
      (Pickup.new (0, -10) PickupType.fuel true).beingAttracted = false →
      (({ position := (0, 10), originalPosition := (0, -10), pickupType := PickupType.fuel,
          isOnCeiling := true, collected := false, beingAttracted := true } : Pickup).beingAttracted = true ↔
       (⟨true, BeamDir.up, 2⟩ : TractorBeam).isPointInBeam (0, 0)
         (Pickup.new (0, -10) PickupType.fuel true).position = true)) ∧
    ((⟨true, BeamDir.up, 2⟩ : TractorBeam).active = false →
      (Pickup.new (0, -10) PickupType.fuel true).beingAttracted = true →
      ({ position := (0, 10), originalPosition := (0, -10), pickupType := PickupType.fuel,
         isOnCeiling := true, collected := false, beingAttracted := true } : Pickup).position =
        (Pickup.new (0, -10) PickupType.fuel true).originalPosition ∧
      ({ position := (0, 10), originalPosition := (0, -10), pickupType := PickupType.fuel,
         isOnCeiling := true, collected := false, beingAttracted := true } : Pickup).beingAttracted = false) :=
  c3_attraction_hysteresis (fun _ => 1) (fun _ _ => one_pos) ⟨true, BeamDir.up, 2⟩ (0, 0) (1 / 100)
    { pickups := [Pickup.new (0, -10) PickupType.fuel true], rng := 0,
      lastPickupX := 0, nextPickupDistance := 0 }
    0 (Pickup.new (0, -10) PickupType.fuel true)
    { position := (0, 10), originalPosition := (0, -10), pickupType := PickupType.fuel,
      isOnCeiling := true, collected := false, beingAttracted := true }
    rfl
    (by norm_num [PickupManager.updateTractorBeamAttraction, PickupManager.updatePickupStep,
      TractorBeam.isActive, PickupManager.updatePickupAttraction,
      PickupManager.handleInitialAttraction, TractorBeam.isPointInBeam,
      TractorBeam.isPointInBeamArea, TractorBeamConstants.BEAM_WIDTH,
      TractorBeamConstants.MAX_RANGE, PickupManager.applyAttractionForce,
      TractorBeam.getAttractionForce, Pickup.new, Pickup.applyAttraction,
      TractorBeamConstants.ATTRACTION_SPEED])
    rfl

/-- C10: hold-band freeze. When the beam is active and a non-collected,
attracted pickup lies outside the narrow activation band
(`BEAM_WIDTH/2 = 16`) but inside the wider hold band
(`ATTRACTION_HOLD_WIDTH/2 = 24`), the update leaves the pickup exactly
unchanged — `get_attraction_force` is the zero vector outside the narrow
band — while `being_attracted` stays true. -/
theorem c10_hold_band_freeze (s : ℚ → ℚ) (beam : TractorBeam) (playerPos : ℚ × ℚ)
    (dt : ℚ) (pm : PickupManager) (i : Nat) (pk pk2 : Pickup)
    (hpk : pm.pickups[i]? = some pk)
    (hpk2 : (pm.updateTractorBeamAttraction s beam playerPos dt).pickups[i]? = some pk2)
    (hc : pk.collected = false) (hA : beam.active = true)
    (hatt : pk.beingAttracted = true)
    (hin : beam.isPointInBeam playerPos pk.position = false)
    (hhold : beam.shouldMaintainAttraction playerPos pk.position = true) :
    pk2 = pk ∧ pk2.position = pk.position ∧ pk2.beingAttracted = true ∧
    beam.getAttractionForce s playerPos pk.position = (0, 0) ∧
    TractorBeamConstants.BEAM_WIDTH / 2 = 16 ∧
    TractorBeamConstants.ATTRACTION_HOLD_WIDTH / 2 = 24 := by
  have hstep : pk2 = PickupManager.updatePickupStep s beam playerPos dt pk := by
    rw [PickupManager.updateTractorBeamAttraction] at hpk2
    simp only [List.getElem?_map, hpk, Option.map_some] at hpk2
    exact (Option.some.inj hpk2).symm
  have heq : pk2 = pk := by
    rw [hstep, step_active_ongoing hA hc hatt, if_pos hhold,
      applyAttractionForce_not_in_beam hin]
  refine ⟨heq, by rw [heq], by rw [heq]; exact hatt,
    getAttractionForce_of_not_in_beam hin,
    by norm_num [TractorBeamConstants.BEAM_WIDTH],
    by norm_num [TractorBeamConstants.ATTRACTION_HOLD_WIDTH]⟩

/-- C10 witness: an attracted pickup 20px to the side of the player
(outside 16, inside 24) under an active upward beam. -/
theorem c10_witness :
    ({ position := (20, -10), originalPosition := (20, -10), pickupType := PickupType.fuel,
       isOnCeiling := true, collected := false, beingAttracted := true } : Pickup) =
      { position := (20, -10), originalPosition := (20, -10), pickupType := PickupType.fuel,
        isOnCeiling := true, collected := false, beingAttracted := true } ∧
    ({ position := (20, -10), originalPosition := (20, -10), pickupType := PickupType.fuel,
       isOnCeiling := true, collected := false, beingAttracted := true } : Pickup).position =
      ({ position := (20, -10), originalPosition := (20, -10), pickupType := PickupType.fuel,
         isOnCeiling := true, collected := false, beingAttracted := true } : Pickup).position ∧
    ({ position := (20, -10), originalPosition := (20, -10), pickupType := PickupType.fuel,
       isOnCeiling := true, collected := false, beingAttracted := true } : Pickup).beingAttracted = true ∧
    (⟨true, BeamDir.up, 2⟩ : TractorBeam).getAttractionForce (fun _ => 1) (0, 0)
      ({ position := (20, -10), originalPosition := (20, -10), pickupType := PickupType.fuel,
         isOnCeiling := true, collected := false, beingAttracted := true } : Pickup).position = (0, 0) ∧
    TractorBeamConstants.BEAM_WIDTH / 2 = 16 ∧
    TractorBeamConstants.ATTRACTION_HOLD_WIDTH / 2 = 24 :=
  c10_hold_band_freeze (fun _ => 1) ⟨true, BeamDir.up, 2⟩ (0, 0) (1 / 100)
    { pickups := [⟨(20, -10), (20, -10), PickupType.fuel, true, false, true⟩],
      rng := 0, lastPickupX := 0, nextPickupDistance := 0 }
    0
    { position := (20, -10), originalPosition := (20, -10), pickupType := PickupType.fuel,
      isOnCeiling := true, collected := false, beingAttracted := true }
    { position := (20, -10), originalPosition := (20, -10), pickupType := PickupType.fuel,
      isOnCeiling := true, collected := false, beingAttracted := true }
    rfl
    (by norm_num [PickupManager.updateTractorBeamAttraction, PickupManager.updatePickupStep,
      TractorBeam.isActive, PickupManager.updatePickupAttraction,
      PickupManager.handleOngoingAttraction, TractorBeam.shouldMaintainAttraction,
      TractorBeam.isPointInBeam, TractorBeam.isPointInBeamArea,
      TractorBeamConstants.BEAM_WIDTH, TractorBeamConstants.ATTRACTION_HOLD_WIDTH,
      TractorBeamConstants.MAX_RANGE, PickupManager.applyAttractionForce,
      TractorBeam.getAttractionForce])
    rfl rfl rfl
    (by norm_num [TractorBeam.isPointInBeam, TractorBeam.isPointInBeamArea,
      TractorBeamConstants.BEAM_WIDTH, TractorBeamConstants.MAX_RANGE])
    (by norm_num [TractorBeam.shouldMaintainAttraction, TractorBeam.isPointInBeamArea,
      TractorBeamConstants.ATTRACTION_HOLD_WIDTH, TractorBeamConstants.MAX_RANGE])

/-- C1: min-gap invariant. Every segment retained by any reachable cave
state (after `new`, and any sequence of `configure_for_level` /
`generate_next`) satisfies `floor - ceiling ≥ MIN_GAP`; moreover when the
drawn perturbations would give a gap below `MIN_GAP`, the emitted (last)
segment has gap exactly `MIN_GAP`, recentered around the midpoint of the
violating ceiling/floor pair. -/
theorem c1_cave_min_gap (c : Cave) (h : c.Reachable) :
    (∀ sg ∈ c.segments, CaveConstants.MIN_GAP ≤ sg.floor - sg.ceiling) ∧
    (∀ (fsd : ℚ) (c2 : Cave), c.generateNext fsd = some c2 →
      c.drawHeights.2.1 - c.drawHeights.1 < CaveConstants.MIN_GAP →
      ∃ rest seg, c2.segments = rest ++ [seg] ∧
        seg.floor - seg.ceiling = CaveConstants.MIN_GAP ∧
        seg.ceiling = (c.drawHeights.1 + c.drawHeights.2.1) / 2 - CaveConstants.MIN_GAP / 2 ∧
        seg.floor = (c.drawHeights.1 + c.drawHeights.2.1) / 2 + CaveConstants.MIN_GAP / 2) := by
  have hinv := segInv_reachable h
  refine ⟨hinv.2, ?_⟩
  intro fsd c2 heq hviol
  unfold Cave.generateNext at heq
  cases hl : c.segments with
  | nil => exact absurd hl hinv.1.1
  | cons a t =>
      rw [hl] at heq
      obtain rfl := Option.some.inj heq
      have hfh := fixedHeights_recentered c hviol
      have hprops :
          (⟨c.fixedHeights.1, c.fixedHeights.2, c.nextX, CaveConstants.SEGMENT_WIDTH⟩ :
              CaveSegment).floor -
            (⟨c.fixedHeights.1, c.fixedHeights.2, c.nextX, CaveConstants.SEGMENT_WIDTH⟩ :
              CaveSegment).ceiling = CaveConstants.MIN_GAP ∧
          (⟨c.fixedHeights.1, c.fixedHeights.2, c.nextX, CaveConstants.SEGMENT_WIDTH⟩ :
              CaveSegment).ceiling =
            (c.drawHeights.1 + c.drawHeights.2.1) / 2 - CaveConstants.MIN_GAP / 2 ∧
          (⟨c.fixedHeights.1, c.fixedHeights.2, c.nextX, CaveConstants.SEGMENT_WIDTH⟩ :
              CaveSegment).floor =
            (c.drawHeights.1 + c.drawHeights.2.1) / 2 + CaveConstants.MIN_GAP / 2 := by
        rw [hfh]
        dsimp only
        refine ⟨by ring, rfl, rfl⟩
      rw [genNextCore_segments]
      unfold evictSegments
      by_cases hlen : CaveConstants.MAX_SEGMENTS <
          (c.segments ++
            [(⟨c.fixedHeights.1, c.fixedHeights.2, c.nextX, CaveConstants.SEGMENT_WIDTH⟩ :
              CaveSegment)]).length
      · rw [if_pos hlen]
        have hk : (c.segments ++
            [(⟨c.fixedHeights.1, c.fixedHeights.2, c.nextX, CaveConstants.SEGMENT_WIDTH⟩ :
              CaveSegment)]).length - CaveConstants.MAX_SEGMENTS ≤ c.segments.length := by
          simp only [List.length_append, List.length_singleton, CaveConstants.MAX_SEGMENTS]
          omega
        rw [List.drop_append_of_le_length hk]
        exact ⟨_, _, rfl, hprops.1, hprops.2.1, hprops.2.2⟩
      · rw [if_neg hlen]
        exact ⟨c.segments, _, rfl, hprops.1, hprops.2.1, hprops.2.2⟩

/-- C1 witness: the cave freshly constructed from seed 0. -/
theorem c1_witness :
    (∀ sg ∈ (Cave.new 0).segments, CaveConstants.MIN_GAP ≤ sg.floor - sg.ceiling) ∧
    (∀ (fsd : ℚ) (c2 : Cave), (Cave.new 0).generateNext fsd = some c2 →
      (Cave.new 0).drawHeights.2.1 - (Cave.new 0).drawHeights.1 < CaveConstants.MIN_GAP →
      ∃ rest seg, c2.segments = rest ++ [seg] ∧
        seg.floor - seg.ceiling = CaveConstants.MIN_GAP ∧
        seg.ceiling = ((Cave.new 0).drawHeights.1 + (Cave.new 0).drawHeights.2.1) / 2 -
          CaveConstants.MIN_GAP / 2 ∧
        seg.floor = ((Cave.new 0).drawHeights.1 + (Cave.new 0).drawHeights.2.1) / 2 +
          CaveConstants.MIN_GAP / 2) :=
  c1_cave_min_gap (Cave.new 0) (Cave.Reachable.new 0)

/-- C2: contiguity invariant. In every reachable cave state (including
across FIFO eviction) each retained segment starts exactly where its
predecessor ends, and the `x_start` values are strictly increasing. -/
theorem c2_cave_contiguity (c : Cave) (h : c.Reachable) :
    (∀ (i : Nat) (a b : CaveSegment),
      c.segments[i]? = some a → c.segments[i + 1]? = some b → b.xStart = a.xEnd) ∧
    List.Pairwise (fun a b => a.xStart < b.xStart) c.segments := by
  obtain ⟨⟨hne, hidx⟩, -⟩ := segInv_reachable h
  constructor
  · intro i a b ha hb
    obtain ⟨hwa, hxa⟩ := hidx i a ha
    obtain ⟨hwb, hxb⟩ := hidx (i + 1) b hb
    have hib : i + 1 < c.segments.length := (List.getElem?_eq_some_iff.mp hb).1
    rw [CaveSegment.xEnd, hwa, hxa, hxb]
    have hcast : ((c.segments.length - i : ℕ) : ℚ)
        = ((c.segments.length - (i + 1) : ℕ) : ℚ) + 1 := by
      have hn : (c.segments.length - i : ℕ) = (c.segments.length - (i + 1) : ℕ) + 1 := by
        omega
      rw [hn]
      push_cast
      ring
    rw [hcast]
    ring
  · rw [List.pairwise_iff_getElem]
    intro i j hi hj hij
    obtain ⟨hwa, hxa⟩ := hidx i (c.segments[i]) (List.getElem?_eq_getElem hi)
    obtain ⟨hwb, hxb⟩ := hidx j (c.segments[j]) (List.getElem?_eq_getElem hj)
    rw [hxa, hxb]
    have hlt : (c.segments.length - j : ℕ) < (c.segments.length - i : ℕ) := by omega
    have hcast : ((c.segments.length - j : ℕ) : ℚ) < ((c.segments.length - i : ℕ) : ℚ) := by
      exact_mod_cast hlt
    have hW : (0 : ℚ) < CaveConstants.SEGMENT_WIDTH := by
      norm_num [CaveConstants.SEGMENT_WIDTH]
    nlinarith

/-- C2 witness: the cave freshly constructed from seed 1. -/
theorem c2_witness :
    (∀ (i : Nat) (a b : CaveSegment),
      (Cave.new 1).segments[i]? = some a → (Cave.new 1).segments[i + 1]? = some b →
        b.xStart = a.xEnd) ∧
    List.Pairwise (fun a b => a.xStart < b.xStart) (Cave.new 1).segments :=
  c2_cave_contiguity (Cave.new 1) (Cave.Reachable.new 1)

lemma genLoop_isSome : ∀ (n : Nat) (fsd : ℚ) (c : Cave), c.SegInv →
    ∃ c2, Cave.genLoop n fsd c = some c2 ∧ c2.SegInv := by
  intro n
  induction n with
  | zero =>
      intro fsd c h
      exact ⟨c, rfl, h⟩
  | succ n ih =>
      intro fsd c h
      cases hl : c.segments with
      | nil => exact absurd hl h.1.1
      | cons a t =>
          have hgen : c.generateNext fsd = some (c.genNextCore fsd) := by
            unfold Cave.generateNext
            rw [hl]
          obtain ⟨c2, hc2, hinv2⟩ := ih fsd (c.genNextCore fsd) (segInv_genNextCore h fsd)
          refine ⟨c2, ?_, hinv2⟩
          have hstep : Cave.genLoop (n + 1) fsd c
              = (c.generateNext fsd).bind (Cave.genLoop n fsd) := rfl
          rw [hstep, hgen, Option.some_bind]
          exact hc2

/-- C9 (amended): on every reachable cave state, `generate_next` and
`segments_in_view` always succeed (the at-least-one-segment assumption
holds), and `configure_for_level(n)` succeeds for every `n ≥ 1`.  For
`n = 0` the u32 subtraction `level_number - 1` underflows (a panic in
debug builds), so totality does not extend to level 0. -/
theorem c9_cave_totality (c : Cave) (h : c.Reachable) :
    (∀ fsd : ℚ, (c.generateNext fsd).isSome = true) ∧
    (∀ lvl : Nat, 1 ≤ lvl → (c.configureForLevel lvl).isSome = true) ∧
    (∀ xMin xMax fsd : ℚ, (c.segmentsInView xMin xMax fsd).isSome = true) := by
  have hinv := segInv_reachable h
  refine ⟨?_, ?_, ?_⟩
  · intro fsd
    cases hl : c.segments with
    | nil => exact absurd hl hinv.1.1
    | cons a t =>
        unfold Cave.generateNext
        rw [hl]
        rfl
  · intro lvl hl
    unfold Cave.configureForLevel
    rw [if_neg (by omega)]
    rfl
  · intro xMin xMax fsd
    unfold Cave.segmentsInView
    obtain ⟨c2, hc2, -⟩ := genLoop_isSome (c.viewIterations xMax) fsd c hinv
    rw [hc2]
    rfl

/-- C9 counterexample: `configure_for_level(0)` hits the u32 underflow
in `level_number - 1` (modelled as `none`), contradicting the claim that
the operation is total for every u32 level number including 0. -/
theorem c9_counterexample : (Cave.new 0).configureForLevel 0 = none := by
  unfold Cave.configureForLevel
  rw [if_pos rfl]

/-- C9 witness: the cave freshly constructed from seed 2. -/
theorem c9_witness :
    (∀ fsd : ℚ, ((Cave.new 2).generateNext fsd).isSome = true) ∧
    (∀ lvl : Nat, 1 ≤ lvl → ((Cave.new 2).configureForLevel lvl).isSome = true) ∧
    (∀ xMin xMax fsd : ℚ, ((Cave.new 2).segmentsInView xMin xMax fsd).isSome = true) :=
  c9_cave_totality (Cave.new 2) (Cave.Reachable.new 2)

end FuelDrift
